import Mathlib

/-!
Verification of the UTF-8 stream validator in `src/main.c`.

The program reads bytes from stdin one at a time (`getchar`), classifies each
leading byte by its top bits, reads and validates continuation bytes, assembles
the code point, applies surrogate / range / overlong checks, and counts 1-byte
(ASCII) versus multi-byte characters.  On the first malformed sequence it stops
with a diagnostic and a distinct exit code.

Shallow embedding.  The byte stream is a `List Nat` whose elements are the
values returned by `getchar` (hence in `[0, 255]`); end of stream
(`getchar() == EOF`) is the end of the list.  The two `unsigned long long`
counters and the `int_fast32_t` code point are embedded as `Nat` (the assembled
code point never exceeds `0x1FFFFF`, so no overflow is reachable in the C
arithmetic).  The C suffix masks `~0xE0`, `~0xF0`, `~0xF8`, `~0xC0` applied to
a byte value in `[0, 255]` equal `0x1F`, `0x0F`, `0x07`, `0x3F`, which is how
they are written below.

The loop of `main` consumes one byte per `getchar` call; we embed it as a step
relation, the standard rendering of a byte-at-a-time stateful loop: a `Mode`
names the control point of `main` between two `getchar` calls, `stepByte` is
the code executed for one byte read, and `validate` drives `stepByte` over the
stream and applies the two end-of-stream continuations (the `printf` after the
loop, and the `goto ERROR_INVALID_CODE_POINT` taken when a read inside a
sequence hits EOF).
-/

namespace Utf8Validate

/-- Outcome of a run of `main`: the final printed tally with exit code 0, or
one of the four error diagnostics of `main.c` (lines 129-140) carrying the
detail value it prints. -/
inductive Result where
  | success (one_byte_chars two_or_more_byte_chars : Nat)
  | invalidHeaderByte (b : Nat)
  | invalidTailByte (b : Nat)
  | invalidCodePoint (cp : Nat)
  | overlongEncoding (cp : Nat)
  deriving DecidableEq

/-- Control point of `main`'s loop between two `getchar` calls:
`header` is the top of the `while` loop (line 75, a new leading byte is read
next); `tails len remaining codepoint` is the point inside the `len`-byte
branch where `remaining` continuation bytes are still to be read and the
partially assembled code point is `codepoint`. -/
inductive Mode where
  | header
  | tails (len remaining codepoint : Nat)
  deriving DecidableEq

/-- C `is_valid_tail_byte` (line 40): the byte matches `10xxxxxx`
(`(tail_byte & ENC_TAIL_PREFIX_MASK) == ENC_TAIL_PREFIX`, masks `0xC0`/`0x80`). -/
def is_valid_tail_byte (tail_byte : Nat) : Bool :=
  (tail_byte &&& 0xC0) == 0x80

/-- C macro `get_tail_bits` (line 37): low 6 bits of a tail byte
(`tail_byte & ENC_TAIL_SUFFIX_MASK`, and `~0xC0` on a byte value is `0x3F`). -/
def get_tail_bits (tail_byte : Nat) : Nat :=
  tail_byte &&& 0x3F

/-- C `is_overlong_encoding2` (line 49): `codepoint <= BYTE1_LAST_CODE_POINT`
(`0x7F`). -/
def is_overlong_encoding2 (codepoint : Nat) : Bool :=
  codepoint ≤ 0x7F

/-- C `is_overlong_encoding3` (line 57): `codepoint <= BYTE2_LAST_CODE_POINT`
(`0x7FF`). -/
def is_overlong_encoding3 (codepoint : Nat) : Bool :=
  codepoint ≤ 0x7FF

/-- C `is_overlong_encoding4` (line 65): `codepoint <= BYTE3_LAST_CODE_POINT`
(`0xFFFF`). -/
def is_overlong_encoding4 (codepoint : Nat) : Bool :=
  codepoint ≤ 0xFFFF

/-- One byte read of `main`'s loop.  In mode `header` this is the
classification chain of lines 77-122: ASCII (`& 0x80 == 0x00`) bumps
`one_byte_chars`; the three multi-byte headers store their suffix payload
(`& 0x1F` / `& 0x0F` / `& 0x07`, lines 82, 90, 104) and expect `len - 1`
continuation bytes; anything else is `goto ERROR_INVALID_HEADER_BYTE`
(line 121).  In mode `tails` this is one
`is_valid_tail_byte` / `get_tail_bits` read (the repeated three-line blocks at
lines 84-86, 92-98, 106-116); after the last continuation byte the sequence's
post-assembly checks run in source order — the surrogate check (line 101, only
in the 3-byte branch), the range check (line 118, only in the 4-byte branch),
then the overlong check for the branch's length (lines 88, 102, 119) — and on
success `two_or_more_byte_chars` is bumped (line 123). -/
def stepByte (mode : Mode) (byte one_byte_chars two_or_more_byte_chars : Nat) :
    (Mode × Nat × Nat) ⊕ Result :=
  match mode with
  | Mode.header =>
    if byte &&& 0x80 = 0x00 then
      Sum.inl (Mode.header, one_byte_chars + 1, two_or_more_byte_chars)
    else if byte &&& 0xE0 = 0xC0 then
      Sum.inl (Mode.tails 2 1 (byte &&& 0x1F), one_byte_chars, two_or_more_byte_chars)
    else if byte &&& 0xF0 = 0xE0 then
      Sum.inl (Mode.tails 3 2 (byte &&& 0x0F), one_byte_chars, two_or_more_byte_chars)
    else if byte &&& 0xF8 = 0xF0 then
      Sum.inl (Mode.tails 4 3 (byte &&& 0x07), one_byte_chars, two_or_more_byte_chars)
    else
      Sum.inr (Result.invalidHeaderByte byte)
  | Mode.tails len remaining codepoint =>
    if !is_valid_tail_byte byte then Sum.inr (Result.invalidTailByte byte) else
    let codepoint := (codepoint <<< 6) ||| get_tail_bits byte
    if remaining = 1 then
      if len = 3 ∧ 0xD800 ≤ codepoint ∧ codepoint ≤ 0xDFFF then
        Sum.inr (Result.invalidCodePoint codepoint)
      else if len = 4 ∧ 0x10FFFF < codepoint then
        Sum.inr (Result.invalidCodePoint codepoint)
      else if len = 2 ∧ is_overlong_encoding2 codepoint then
        Sum.inr (Result.overlongEncoding codepoint)
      else if len = 3 ∧ is_overlong_encoding3 codepoint then
        Sum.inr (Result.overlongEncoding codepoint)
      else if len = 4 ∧ is_overlong_encoding4 codepoint then
        Sum.inr (Result.overlongEncoding codepoint)
      else
        Sum.inl (Mode.header, one_byte_chars, two_or_more_byte_chars + 1)
    else
      Sum.inl (Mode.tails len (remaining - 1) codepoint, one_byte_chars, two_or_more_byte_chars)

/-- The loop of `main`: feed the stream to `stepByte` byte by byte.  At end of
stream, mode `header` is the normal loop exit (`printf`, line 126, exit
code 0); mode `tails` is a `(byte = getchar()) == EOF` read inside a sequence,
which is `goto ERROR_INVALID_CODE_POINT` with the partial code point
(lines 84, 92, 96, 106, 110, 114). -/
def validate : List Nat → Mode → Nat → Nat → Result
  | [], Mode.header, one_byte_chars, two_or_more_byte_chars =>
      Result.success one_byte_chars two_or_more_byte_chars
  | [], Mode.tails _ _ codepoint, _, _ =>
      Result.invalidCodePoint codepoint
  | byte :: input, mode, one_byte_chars, two_or_more_byte_chars =>
      match stepByte mode byte one_byte_chars two_or_more_byte_chars with
      | Sum.inl (mode2, one2, two2) => validate input mode2 one2 two2
      | Sum.inr r => r

/-- Running the whole program on an input stream: `main` starts at the top of
the loop with both counters 0 (line 70). -/
def utf8validate (input : List Nat) : Result :=
  validate input Mode.header 0 0

/-- The process exit status `main` returns for each outcome
(lines 127, 131, 134, 137, 140). -/
def exitCode : Result → Nat
  | Result.success _ _ => 0
  | Result.invalidHeaderByte _ => 1
  | Result.invalidTailByte _ => 2
  | Result.invalidCodePoint _ => 3
  | Result.overlongEncoding _ => 4

/-- Sequence length determined by the leading byte's top bits, following the
classification order of lines 77-122 of `main.c` (0 for an invalid header). -/
def seq_len (header_byte : Nat) : Nat :=
  if header_byte &&& 0x80 = 0x00 then 1
  else if header_byte &&& 0xE0 = 0xC0 then 2
  else if header_byte &&& 0xF0 = 0xE0 then 3
  else if header_byte &&& 0xF8 = 0xF0 then 4
  else 0

/-- Partial scan: the machine state (mode and counters) after consuming the
whole stream, or `none` if some byte makes `stepByte` fail first.  `scan`
returning `some (Mode.tails ..)` is exactly "end of stream was reached while a
continuation byte was still expected". -/
def scan : List Nat → Mode → Nat → Nat → Option (Mode × Nat × Nat)
  | [], mode, one_byte_chars, two_or_more_byte_chars =>
      some (mode, one_byte_chars, two_or_more_byte_chars)
  | byte :: input, mode, one_byte_chars, two_or_more_byte_chars =>
      match stepByte mode byte one_byte_chars two_or_more_byte_chars with
      | Sum.inl (mode2, one2, two2) => scan input mode2 one2 two2
      | Sum.inr _ => none

/-! ### The standard UTF-8 encodings, for the round-trip property

These are not part of `main.c` (which only validates); they are the standard
2-, 3- and 4-byte UTF-8 encodings described in the spec's leading-byte and
continuation-byte tables: the leading byte carries the high payload bits under
the `110xxxxx` / `1110xxxx` / `11110xxx` prefix, each continuation byte carries
the next 6 payload bits under the `10xxxxxx` prefix, most significant first. -/

/-- Standard 2-byte UTF-8 encoding of a code point in `[0x80, 0x7FF]`. -/
def encode2 (cp : Nat) : List Nat :=
  [0xC0 ||| (cp >>> 6), 0x80 ||| (cp &&& 0x3F)]

/-- Standard 3-byte UTF-8 encoding of a code point in `[0x800, 0xFFFF]`. -/
def encode3 (cp : Nat) : List Nat :=
  [0xE0 ||| (cp >>> 12), 0x80 ||| ((cp >>> 6) &&& 0x3F), 0x80 ||| (cp &&& 0x3F)]

/-- Standard 4-byte UTF-8 encoding of a code point in `[0x10000, 0x10FFFF]`. -/
def encode4 (cp : Nat) : List Nat :=
  [0xF0 ||| (cp >>> 18), 0x80 ||| ((cp >>> 12) &&& 0x3F),
   0x80 ||| ((cp >>> 6) &&& 0x3F), 0x80 ||| (cp &&& 0x3F)]

/-! ### Arithmetic helper lemmas -/

lemma and_3F_eq_mod (x : Nat) : x &&& 0x3F = x % 64 := by
  have h := Nat.and_pow_two_sub_one_eq_mod x 6
  norm_num at h
  exact h

lemma shiftRight6_eq_div (x : Nat) : x >>> 6 = x / 64 := by
  have h := Nat.shiftRight_eq_div_pow x 6
  norm_num at h
  exact h

lemma shiftRight12_eq_div (x : Nat) : x >>> 12 = x / 4096 := by
  have h := Nat.shiftRight_eq_div_pow x 12
  norm_num at h
  exact h

lemma shiftRight18_eq_div (x : Nat) : x >>> 18 = x / 262144 := by
  have h := Nat.shiftRight_eq_div_pow x 18
  norm_num at h
  exact h

lemma shiftLeft6_or_eq (a b : Nat) (hb : b < 64) : (a <<< 6) ||| b = 64 * a + b := by
  have hb2 : b < 2 ^ 6 := by simpa using hb
  have h := Nat.mul_add_lt_is_or hb2 a
  rw [Nat.shiftLeft_eq, Nat.mul_comm, ← h]

lemma get_tail_bits_lt (b : Nat) : get_tail_bits b < 64 := by
  have h : get_tail_bits b ≤ 0x3F := Nat.and_le_right
  omega

/-- A byte below `0x80` fails the `& 0x80` test (the ASCII branch test of
line 77). -/
lemma ascii_mask_eq_zero {b : Nat} (hb : b ≤ 0x7F) : b &&& 0x80 = 0 := by
  have h : ∀ x < 128, x &&& 0x80 = 0 := by decide
  exact h b (by omega)

/-- Masking through a coarser mask: if `y`'s bits are contained in `x`'s, then
`h &&& y` factors through `h &&& x`. -/
lemma and_through (h x y : Nat) (hxy : x &&& y = y) : h &&& y = (h &&& x) &&& y := by
  rw [Nat.and_assoc, hxy]

/-- A byte whose top three bits are `110` is not ASCII. -/
lemma header2_not_ascii {h : Nat} (h2 : h &&& 0xE0 = 0xC0) : h &&& 0x80 ≠ 0 := by
  have e : h &&& 0x80 = (h &&& 0xE0) &&& 0x80 := and_through h 0xE0 0x80 (by decide)
  rw [h2, show (0xC0 &&& 0x80 : Nat) = 0x80 from by decide] at e
  omega

/-- A byte whose top four bits are `1110` is not ASCII and not a 2-byte header. -/
lemma header3_not_prev {h : Nat} (h3 : h &&& 0xF0 = 0xE0) :
    h &&& 0x80 ≠ 0 ∧ h &&& 0xE0 ≠ 0xC0 := by
  have e1 : h &&& 0x80 = (h &&& 0xF0) &&& 0x80 := and_through h 0xF0 0x80 (by decide)
  have e2 : h &&& 0xE0 = (h &&& 0xF0) &&& 0xE0 := and_through h 0xF0 0xE0 (by decide)
  rw [h3, show (0xE0 &&& 0x80 : Nat) = 0x80 from by decide] at e1
  rw [h3, show (0xE0 &&& 0xE0 : Nat) = 0xE0 from by decide] at e2
  omega

/-- A byte whose top five bits are `11110` matches none of the shorter header
patterns. -/
lemma header4_not_prev {h : Nat} (h4 : h &&& 0xF8 = 0xF0) :
    h &&& 0x80 ≠ 0 ∧ h &&& 0xE0 ≠ 0xC0 ∧ h &&& 0xF0 ≠ 0xE0 := by
  have e1 : h &&& 0x80 = (h &&& 0xF8) &&& 0x80 := and_through h 0xF8 0x80 (by decide)
  have e2 : h &&& 0xE0 = (h &&& 0xF8) &&& 0xE0 := and_through h 0xF8 0xE0 (by decide)
  have e3 : h &&& 0xF0 = (h &&& 0xF8) &&& 0xF0 := and_through h 0xF8 0xF0 (by decide)
  rw [h4, show (0xF0 &&& 0x80 : Nat) = 0x80 from by decide] at e1
  rw [h4, show (0xF0 &&& 0xE0 : Nat) = 0xE0 from by decide] at e2
  rw [h4, show (0xF0 &&& 0xF0 : Nat) = 0xF0 from by decide] at e3
  omega

/-! ### Step lemmas for `stepByte` and `validate` -/

lemma validate_nil_header (a m : Nat) :
    validate [] Mode.header a m = Result.success a m := rfl

lemma validate_nil_tails (n r cp a m : Nat) :
    validate [] (Mode.tails n r cp) a m = Result.invalidCodePoint cp := rfl

lemma validate_cons_ok {mode : Mode} {b a m : Nat} {mode2 : Mode} {a2 m2 : Nat}
    (h : stepByte mode b a m = Sum.inl (mode2, a2, m2)) (input : List Nat) :
    validate (b :: input) mode a m = validate input mode2 a2 m2 := by
  simp [validate, h]

lemma validate_cons_err {mode : Mode} {b a m : Nat} {r : Result}
    (h : stepByte mode b a m = Sum.inr r) (input : List Nat) :
    validate (b :: input) mode a m = r := by
  simp [validate, h]

lemma stepByte_ascii {b : Nat} (hb : b &&& 0x80 = 0) (a m : Nat) :
    stepByte Mode.header b a m = Sum.inl (Mode.header, a + 1, m) := by
  simp [stepByte, hb]

lemma stepByte_header2 {b : Nat} (h1 : b &&& 0x80 ≠ 0) (h2 : b &&& 0xE0 = 0xC0)
    (a m : Nat) :
    stepByte Mode.header b a m = Sum.inl (Mode.tails 2 1 (b &&& 0x1F), a, m) := by
  simp [stepByte, h1, h2]

lemma stepByte_header3 {b : Nat} (h1 : b &&& 0x80 ≠ 0) (h2 : b &&& 0xE0 ≠ 0xC0)
    (h3 : b &&& 0xF0 = 0xE0) (a m : Nat) :
    stepByte Mode.header b a m = Sum.inl (Mode.tails 3 2 (b &&& 0x0F), a, m) := by
  simp [stepByte, h1, h2, h3]

lemma stepByte_header4 {b : Nat} (h1 : b &&& 0x80 ≠ 0) (h2 : b &&& 0xE0 ≠ 0xC0)
    (h3 : b &&& 0xF0 ≠ 0xE0) (h4 : b &&& 0xF8 = 0xF0) (a m : Nat) :
    stepByte Mode.header b a m = Sum.inl (Mode.tails 4 3 (b &&& 0x07), a, m) := by
  simp [stepByte, h1, h2, h3, h4]

lemma stepByte_badheader {b : Nat} (h1 : b &&& 0x80 ≠ 0) (h2 : b &&& 0xE0 ≠ 0xC0)
    (h3 : b &&& 0xF0 ≠ 0xE0) (h4 : b &&& 0xF8 ≠ 0xF0) (a m : Nat) :
    stepByte Mode.header b a m = Sum.inr (Result.invalidHeaderByte b) := by
  simp [stepByte, h1, h2, h3, h4]

lemma stepByte_badtail {n r cp b : Nat} (hb : is_valid_tail_byte b = false) (a m : Nat) :
    stepByte (Mode.tails n r cp) b a m = Sum.inr (Result.invalidTailByte b) := by
  simp [stepByte, hb]

lemma stepByte_midtail {n r cp b : Nat} (hb : is_valid_tail_byte b = true)
    (hr : r ≠ 1) (a m : Nat) :
    stepByte (Mode.tails n r cp) b a m =
      Sum.inl (Mode.tails n (r - 1) ((cp <<< 6) ||| get_tail_bits b), a, m) := by
  simp [stepByte, hb, hr]

lemma stepByte_last2_ok {cp b : Nat} (hb : is_valid_tail_byte b = true)
    (hgt : 0x7F < (cp <<< 6) ||| get_tail_bits b) (a m : Nat) :
    stepByte (Mode.tails 2 1 cp) b a m = Sum.inl (Mode.header, a, m + 1) := by
  simp [stepByte, hb, is_overlong_encoding2]
  omega

lemma stepByte_last2_overlong {cp b : Nat} (hb : is_valid_tail_byte b = true)
    (hle : (cp <<< 6) ||| get_tail_bits b ≤ 0x7F) (a m : Nat) :
    stepByte (Mode.tails 2 1 cp) b a m =
      Sum.inr (Result.overlongEncoding ((cp <<< 6) ||| get_tail_bits b)) := by
  simp [stepByte, hb, is_overlong_encoding2]
  omega

lemma stepByte_last3_ok {cp b : Nat} (hb : is_valid_tail_byte b = true)
    (hgt : 0x7FF < (cp <<< 6) ||| get_tail_bits b)
    (hsur : ¬(0xD800 ≤ (cp <<< 6) ||| get_tail_bits b ∧
              (cp <<< 6) ||| get_tail_bits b ≤ 0xDFFF)) (a m : Nat) :
    stepByte (Mode.tails 3 1 cp) b a m = Sum.inl (Mode.header, a, m + 1) := by
  simp [stepByte, hb, is_overlong_encoding3]
  split_ifs <;> first | rfl | (exfalso; omega)

set_option linter.unusedTactic false in
lemma stepByte_last3_surrogate {cp b : Nat} (hb : is_valid_tail_byte b = true)
    (hsur : 0xD800 ≤ (cp <<< 6) ||| get_tail_bits b ∧
            (cp <<< 6) ||| get_tail_bits b ≤ 0xDFFF) (a m : Nat) :
    stepByte (Mode.tails 3 1 cp) b a m =
      Sum.inr (Result.invalidCodePoint ((cp <<< 6) ||| get_tail_bits b)) := by
  simp [stepByte, hb]
  split_ifs <;> first | rfl | (exfalso; omega) | (intro hx; exfalso; omega)

lemma stepByte_last3_overlong {cp b : Nat} (hb : is_valid_tail_byte b = true)
    (hle : (cp <<< 6) ||| get_tail_bits b ≤ 0x7FF) (a m : Nat) :
    stepByte (Mode.tails 3 1 cp) b a m =
      Sum.inr (Result.overlongEncoding ((cp <<< 6) ||| get_tail_bits b)) := by
  simp [stepByte, hb, is_overlong_encoding3]
  split_ifs <;> first | rfl | (exfalso; omega)

lemma stepByte_last4_ok {cp b : Nat} (hb : is_valid_tail_byte b = true)
    (hgt : 0xFFFF < (cp <<< 6) ||| get_tail_bits b)
    (hrange : (cp <<< 6) ||| get_tail_bits b ≤ 0x10FFFF) (a m : Nat) :
    stepByte (Mode.tails 4 1 cp) b a m = Sum.inl (Mode.header, a, m + 1) := by
  simp [stepByte, hb, is_overlong_encoding4]
  split_ifs <;> first | rfl | (exfalso; omega)

set_option linter.unusedTactic false in
lemma stepByte_last4_range {cp b : Nat} (hb : is_valid_tail_byte b = true)
    (hrange : 0x10FFFF < (cp <<< 6) ||| get_tail_bits b) (a m : Nat) :
    stepByte (Mode.tails 4 1 cp) b a m =
      Sum.inr (Result.invalidCodePoint ((cp <<< 6) ||| get_tail_bits b)) := by
  simp [stepByte, hb]
  split_ifs <;> first | rfl | (exfalso; omega) | (intro hx; exfalso; omega)

lemma stepByte_last4_overlong {cp b : Nat} (hb : is_valid_tail_byte b = true)
    (hle : (cp <<< 6) ||| get_tail_bits b ≤ 0xFFFF) (a m : Nat) :
    stepByte (Mode.tails 4 1 cp) b a m =
      Sum.inr (Result.overlongEncoding ((cp <<< 6) ||| get_tail_bits b)) := by
  simp [stepByte, hb, is_overlong_encoding4]
  split_ifs <;> first | rfl | (exfalso; omega)

lemma stepByte_midtail3 {cp b : Nat} (hb : is_valid_tail_byte b = true) (a m : Nat) :
    stepByte (Mode.tails 3 2 cp) b a m =
      Sum.inl (Mode.tails 3 1 ((cp <<< 6) ||| get_tail_bits b), a, m) := by
  simp [stepByte, hb]

lemma stepByte_midtail4a {cp b : Nat} (hb : is_valid_tail_byte b = true) (a m : Nat) :
    stepByte (Mode.tails 4 3 cp) b a m =
      Sum.inl (Mode.tails 4 2 ((cp <<< 6) ||| get_tail_bits b), a, m) := by
  simp [stepByte, hb]

lemma stepByte_midtail4b {cp b : Nat} (hb : is_valid_tail_byte b = true) (a m : Nat) :
    stepByte (Mode.tails 4 2 cp) b a m =
      Sum.inl (Mode.tails 4 1 ((cp <<< 6) ||| get_tail_bits b), a, m) := by
  simp [stepByte, hb]

/-! ### Byte-level facts about the standard encodings -/

lemma header2_or_facts : ∀ q < 32,
    (0xC0 ||| q) &&& 0x80 ≠ 0 ∧ (0xC0 ||| q) &&& 0xE0 = 0xC0 ∧
    (0xC0 ||| q) &&& 0x1F = q := by decide

lemma header3_or_facts : ∀ q < 16,
    (0xE0 ||| q) &&& 0x80 ≠ 0 ∧ (0xE0 ||| q) &&& 0xE0 ≠ 0xC0 ∧
    (0xE0 ||| q) &&& 0xF0 = 0xE0 ∧ (0xE0 ||| q) &&& 0x0F = q := by decide

lemma header4_or_facts : ∀ q < 8,
    (0xF0 ||| q) &&& 0x80 ≠ 0 ∧ (0xF0 ||| q) &&& 0xE0 ≠ 0xC0 ∧
    (0xF0 ||| q) &&& 0xF0 ≠ 0xE0 ∧ (0xF0 ||| q) &&& 0xF8 = 0xF0 ∧
    (0xF0 ||| q) &&& 0x07 = q := by decide

lemma tail_or_facts : ∀ r < 64,
    is_valid_tail_byte (0x80 ||| r) = true ∧ get_tail_bits (0x80 ||| r) = r := by decide

/-! ### ASCII streams -/

/-- On an all-ASCII stream, `validate` from the loop top succeeds and adds the
stream length to the ASCII counter. -/
lemma validate_ascii (l : List Nat) (hl : ∀ b ∈ l, b ≤ 0x7F) :
    ∀ a m : Nat, validate l Mode.header a m = Result.success (a + l.length) m := by
  induction l with
  | nil => intro a m; simp [validate_nil_header]
  | cons b t ih =>
    intro a m
    have h80 : b &&& 0x80 = 0 := ascii_mask_eq_zero (hl b (by simp))
    have ht : ∀ x ∈ t, x ≤ 0x7F := fun x hx => hl x (by simp [hx])
    rw [validate_cons_ok (stepByte_ascii h80 a m), ih ht (a + 1) m]
    congr 1
    simp
    omega

/-! ### Claim theorems -/

/-- C1: for every input byte sequence consisting solely of bytes in
`[0x00, 0x7F]`, validation succeeds with the ASCII counter equal to the input
length and the multi-byte counter equal to 0. -/
theorem ascii_only_input_counts (l : List Nat) (hl : ∀ b ∈ l, b ≤ 0x7F) :
    utf8validate l = Result.success l.length 0 := by
  unfold utf8validate
  rw [validate_ascii l hl 0 0]
  simp

/-- Witness for C1 at the concrete input `[0x41, 0x42, 0x00]`. -/
theorem ascii_only_input_counts_witness :
    utf8validate [0x41, 0x42, 0x00] = Result.success (List.length [0x41, 0x42, 0x00]) 0 :=
  ascii_only_input_counts [0x41, 0x42, 0x00] (by decide)

/-- C4: a leading byte that matches none of the four valid header prefixes is
rejected as an Invalid header byte, carrying that byte as detail, with exit
code 1; in particular the single byte `0x80` (a lone continuation byte in
leading position). -/
theorem invalid_header_byte_rejected (h : Nat) (rest : List Nat) (a m : Nat)
    (h1 : h &&& 0x80 ≠ 0) (h2 : h &&& 0xE0 ≠ 0xC0)
    (h3 : h &&& 0xF0 ≠ 0xE0) (h4 : h &&& 0xF8 ≠ 0xF0) :
    validate (h :: rest) Mode.header a m = Result.invalidHeaderByte h ∧
    exitCode (validate (h :: rest) Mode.header a m) = 1 := by
  have hv := validate_cons_err (stepByte_badheader h1 h2 h3 h4 a m) rest
  exact ⟨hv, by rw [hv]; rfl⟩

/-- Witness for C4 at the concrete input `[0x80]`: failure, Invalid header
byte `0x80`, exit code 1. -/
theorem invalid_header_byte_rejected_witness :
    validate (0x80 :: ([] : List Nat)) Mode.header 0 0 = Result.invalidHeaderByte 0x80 ∧
    exitCode (validate (0x80 :: ([] : List Nat)) Mode.header 0 0) = 1 :=
  invalid_header_byte_rejected 0x80 [] 0 0 (by decide) (by decide) (by decide) (by decide)

/-- C5: the one-byte input `0x7F` succeeds as one ASCII character, while the
overlong 2-byte encodings `0xC1 0xBF` (of `0x7F`) and `0xC0 0x80` (of NUL)
each fail as Overlong encoding with the assembled code point as detail and
exit code 4. -/
theorem overlong_two_byte_boundary :
    utf8validate [0x7F] = Result.success 1 0 ∧
    utf8validate [0xC1, 0xBF] = Result.overlongEncoding 0x7F ∧
    exitCode (utf8validate [0xC1, 0xBF]) = 4 ∧
    utf8validate [0xC0, 0x80] = Result.overlongEncoding 0x00 ∧
    exitCode (utf8validate [0xC0, 0x80]) = 4 := by
  decide

/-- C2: feeding the standard 2-byte encoding of a code point in
`[0x80, 0x7FF]` (and analogously the 3-byte encoding of `[0x800, 0xFFFF]`
minus the surrogates, and the 4-byte encoding of `[0x10000, 0x10FFFF]`), the
validator's assembly expression recovers exactly the original code point, all
checks pass, and the multi-byte counter is incremented by exactly 1 per
character. -/
theorem multibyte_roundtrip (cp : Nat) :
    (0x80 ≤ cp → cp ≤ 0x7FF →
      (((0xC0 ||| (cp >>> 6)) &&& 0x1F) <<< 6) |||
          get_tail_bits (0x80 ||| (cp &&& 0x3F)) = cp ∧
      ∀ (rest : List Nat) (a m : Nat),
        validate (encode2 cp ++ rest) Mode.header a m =
          validate rest Mode.header a (m + 1)) ∧
    (0x800 ≤ cp → cp ≤ 0xFFFF → ¬(0xD800 ≤ cp ∧ cp ≤ 0xDFFF) →
      (((((0xE0 ||| (cp >>> 12)) &&& 0x0F) <<< 6) |||
          get_tail_bits (0x80 ||| ((cp >>> 6) &&& 0x3F))) <<< 6) |||
          get_tail_bits (0x80 ||| (cp &&& 0x3F)) = cp ∧
      ∀ (rest : List Nat) (a m : Nat),
        validate (encode3 cp ++ rest) Mode.header a m =
          validate rest Mode.header a (m + 1)) ∧
    (0x10000 ≤ cp → cp ≤ 0x10FFFF →
      (((((((0xF0 ||| (cp >>> 18)) &&& 0x07) <<< 6) |||
          get_tail_bits (0x80 ||| ((cp >>> 12) &&& 0x3F))) <<< 6) |||
          get_tail_bits (0x80 ||| ((cp >>> 6) &&& 0x3F))) <<< 6) |||
          get_tail_bits (0x80 ||| (cp &&& 0x3F)) = cp ∧
      ∀ (rest : List Nat) (a m : Nat),
        validate (encode4 cp ++ rest) Mode.header a m =
          validate rest Mode.header a (m + 1)) := by
  refine ⟨?_, ?_, ?_⟩
  · -- 2-byte form
    intro h1 h2
    have hq : cp >>> 6 < 32 := by rw [shiftRight6_eq_div]; omega
    obtain ⟨f1, f2, f3⟩ := header2_or_facts _ hq
    have hr : cp &&& 0x3F < 64 := by rw [and_3F_eq_mod]; omega
    obtain ⟨t1, t2⟩ := tail_or_facts _ hr
    have hval : ((cp >>> 6) <<< 6) ||| get_tail_bits (0x80 ||| (cp &&& 0x3F)) = cp := by
      rw [t2, shiftLeft6_or_eq _ _ hr, shiftRight6_eq_div, and_3F_eq_mod]
      omega
    constructor
    · rw [f3]
      exact hval
    · intro rest a m
      simp only [encode2, List.cons_append, List.nil_append]
      rw [validate_cons_ok (stepByte_header2 f1 f2 a m), f3,
          validate_cons_ok (stepByte_last2_ok t1 (by rw [hval]; omega) a m)]
  · -- 3-byte form
    intro h1 h2 hsur
    have hq : cp >>> 12 < 16 := by rw [shiftRight12_eq_div]; omega
    obtain ⟨g1, g2, g3, g4⟩ := header3_or_facts _ hq
    have hr1 : (cp >>> 6) &&& 0x3F < 64 := by rw [and_3F_eq_mod]; omega
    have hr0 : cp &&& 0x3F < 64 := by rw [and_3F_eq_mod]; omega
    obtain ⟨u1, u2⟩ := tail_or_facts _ hr1
    obtain ⟨v1, v2⟩ := tail_or_facts _ hr0
    have e1 : ((cp >>> 12) <<< 6) ||| get_tail_bits (0x80 ||| ((cp >>> 6) &&& 0x3F)) =
        64 * (cp >>> 12) + ((cp >>> 6) &&& 0x3F) := by
      rw [u2, shiftLeft6_or_eq _ _ hr1]
    have e2 : ((64 * (cp >>> 12) + ((cp >>> 6) &&& 0x3F)) <<< 6) |||
        get_tail_bits (0x80 ||| (cp &&& 0x3F)) = cp := by
      rw [v2, shiftLeft6_or_eq _ _ hr0, shiftRight12_eq_div, shiftRight6_eq_div,
          and_3F_eq_mod, and_3F_eq_mod]
      omega
    constructor
    · rw [g4, e1]
      exact e2
    · intro rest a m
      simp only [encode3, List.cons_append, List.nil_append]
      rw [validate_cons_ok (stepByte_header3 g1 g2 g3 a m), g4,
          validate_cons_ok (stepByte_midtail3 u1 a m), e1,
          validate_cons_ok (stepByte_last3_ok v1 (by rw [e2]; omega)
            (by rw [e2]; exact hsur) a m)]
  · -- 4-byte form
    intro h1 h2
    have hq : cp >>> 18 < 8 := by rw [shiftRight18_eq_div]; omega
    obtain ⟨k1, k2, k3, k4, k5⟩ := header4_or_facts _ hq
    have hr2 : (cp >>> 12) &&& 0x3F < 64 := by rw [and_3F_eq_mod]; omega
    have hr1 : (cp >>> 6) &&& 0x3F < 64 := by rw [and_3F_eq_mod]; omega
    have hr0 : cp &&& 0x3F < 64 := by rw [and_3F_eq_mod]; omega
    obtain ⟨u1, u2⟩ := tail_or_facts _ hr2
    obtain ⟨v1, v2⟩ := tail_or_facts _ hr1
    obtain ⟨w1, w2⟩ := tail_or_facts _ hr0
    have e1 : ((cp >>> 18) <<< 6) ||| get_tail_bits (0x80 ||| ((cp >>> 12) &&& 0x3F)) =
        64 * (cp >>> 18) + ((cp >>> 12) &&& 0x3F) := by
      rw [u2, shiftLeft6_or_eq _ _ hr2]
    have e2 : ((64 * (cp >>> 18) + ((cp >>> 12) &&& 0x3F)) <<< 6) |||
        get_tail_bits (0x80 ||| ((cp >>> 6) &&& 0x3F)) =
        64 * (64 * (cp >>> 18) + ((cp >>> 12) &&& 0x3F)) + ((cp >>> 6) &&& 0x3F) := by
      rw [v2, shiftLeft6_or_eq _ _ hr1]
    have e3 : ((64 * (64 * (cp >>> 18) + ((cp >>> 12) &&& 0x3F)) + ((cp >>> 6) &&& 0x3F)) <<< 6) |||
        get_tail_bits (0x80 ||| (cp &&& 0x3F)) = cp := by
      rw [w2, shiftLeft6_or_eq _ _ hr0, shiftRight18_eq_div, shiftRight12_eq_div,
          shiftRight6_eq_div, and_3F_eq_mod, and_3F_eq_mod, and_3F_eq_mod]
      omega
    constructor
    · rw [k5, e1, e2]
      exact e3
    · intro rest a m
      simp only [encode4, List.cons_append, List.nil_append]
      rw [validate_cons_ok (stepByte_header4 k1 k2 k3 k4 a m), k5,
          validate_cons_ok (stepByte_midtail4a u1 a m), e1,
          validate_cons_ok (stepByte_midtail4b v1 a m), e2,
          validate_cons_ok (stepByte_last4_ok w1 (by rw [e3]; omega) (by rw [e3]; omega) a m)]

/-- Witness for C2 at the code points `0xE9` (2-byte), `0x20AC` (3-byte) and
`0x1F600` (4-byte): each standard encoding is consumed as exactly one
multi-byte character. -/
theorem multibyte_roundtrip_witness :
    validate (encode2 0xE9 ++ []) Mode.header 0 0 = validate [] Mode.header 0 (0 + 1) ∧
    validate (encode3 0x20AC ++ []) Mode.header 0 0 = validate [] Mode.header 0 (0 + 1) ∧
    validate (encode4 0x1F600 ++ []) Mode.header 0 0 = validate [] Mode.header 0 (0 + 1) :=
  ⟨((multibyte_roundtrip 0xE9).1 (by decide) (by decide)).2 [] 0 0,
   ((multibyte_roundtrip 0x20AC).2.1 (by decide) (by decide) (by decide)).2 [] 0 0,
   ((multibyte_roundtrip 0x1F600).2.2 (by decide) (by decide)).2 [] 0 0⟩

/-! ### Truncated sequences at end of stream -/

/-- If the scan of a stream ends with continuation bytes still expected, the
run fails with Invalid code point carrying the partial code point. -/
lemma validate_of_scan_tails :
    ∀ (l : List Nat) (mode : Mode) (a m n r cp a2 m2 : Nat),
      scan l mode a m = some (Mode.tails n r cp, a2, m2) →
      validate l mode a m = Result.invalidCodePoint cp := by
  intro l
  induction l with
  | nil =>
    intro mode a m n r cp a2 m2 hs
    simp only [scan, Option.some_inj] at hs
    have hmode : mode = Mode.tails n r cp := congrArg Prod.fst hs
    subst hmode
    exact validate_nil_tails n r cp a m
  | cons b t ih =>
    intro mode a m n r cp a2 m2 hs
    simp only [scan] at hs
    cases hstep : stepByte mode b a m with
    | inl s =>
      obtain ⟨mode2, a3, m3⟩ := s
      rw [hstep] at hs
      rw [validate_cons_ok hstep]
      exact ih mode2 a3 m3 n r cp a2 m2 hs
    | inr r2 =>
      rw [hstep] at hs
      simp at hs

/-- C3 counterexample at the concrete input `[0xC3]`: end of stream is reached
while a continuation byte of a 2-byte sequence is expected, yet the failure
kind is Invalid code point with exit code 3, not Invalid tail byte with exit
code 2. -/
theorem eof_mid_sequence_counterexample :
    scan [0xC3] Mode.header 0 0 = some (Mode.tails 2 1 0x03, 0, 0) ∧
    utf8validate [0xC3] = Result.invalidCodePoint 0x03 ∧
    exitCode (utf8validate [0xC3]) = 3 := by
  decide

/-- C3 (amended): for every input in which end-of-stream is reached while a
continuation byte of a 2-, 3-, or 4-byte sequence is still expected, validation
fails with kind Invalid code point, carrying the partially assembled code
point, and exit code 3. -/
theorem eof_mid_sequence_invalid_code_point (l : List Nat) (n r cp a2 m2 : Nat)
    (hs : scan l Mode.header 0 0 = some (Mode.tails n r cp, a2, m2)) :
    utf8validate l = Result.invalidCodePoint cp ∧ exitCode (utf8validate l) = 3 := by
  have hv : utf8validate l = Result.invalidCodePoint cp :=
    validate_of_scan_tails l Mode.header 0 0 n r cp a2 m2 hs
  exact ⟨hv, by rw [hv]; rfl⟩

/-- Witness for C3 (amended) at the concrete input `[0xE2, 0x82]` (a truncated
3-byte sequence). -/
theorem eof_mid_sequence_invalid_code_point_witness :
    utf8validate [0xE2, 0x82] = Result.invalidCodePoint 0x82 ∧
    exitCode (utf8validate [0xE2, 0x82]) = 3 :=
  eof_mid_sequence_invalid_code_point [0xE2, 0x82] 3 1 0x82 0 0 (by decide)

/-- C10: when end-of-stream is reached in the middle of a multi-byte sequence,
the code-point detail carried by the failure is exactly the payload bits
accumulated from the bytes already consumed, with no shifting for the missing
bytes. -/
theorem truncation_codepoint_detail (h t1 t2 : Nat) (a m : Nat) :
    (h &&& 0xE0 = 0xC0 →
      validate [h] Mode.header a m = Result.invalidCodePoint (h &&& 0x1F)) ∧
    (h &&& 0xF0 = 0xE0 →
      validate [h] Mode.header a m = Result.invalidCodePoint (h &&& 0x0F) ∧
      (is_valid_tail_byte t1 = true →
        validate [h, t1] Mode.header a m =
          Result.invalidCodePoint (((h &&& 0x0F) <<< 6) ||| get_tail_bits t1))) ∧
    (h &&& 0xF8 = 0xF0 →
      validate [h] Mode.header a m = Result.invalidCodePoint (h &&& 0x07) ∧
      (is_valid_tail_byte t1 = true →
        validate [h, t1] Mode.header a m =
          Result.invalidCodePoint (((h &&& 0x07) <<< 6) ||| get_tail_bits t1) ∧
        (is_valid_tail_byte t2 = true →
          validate [h, t1, t2] Mode.header a m =
            Result.invalidCodePoint
              ((((h &&& 0x07) <<< 6) ||| get_tail_bits t1) <<< 6 |||
                get_tail_bits t2)))) := by
  refine ⟨?_, ?_, ?_⟩
  · intro h2
    rw [validate_cons_ok (stepByte_header2 (header2_not_ascii h2) h2 a m)]
    exact validate_nil_tails _ _ _ _ _
  · intro h3
    obtain ⟨na, n2⟩ := header3_not_prev h3
    refine ⟨?_, ?_⟩
    · rw [validate_cons_ok (stepByte_header3 na n2 h3 a m)]
      exact validate_nil_tails _ _ _ _ _
    · intro ht1
      rw [validate_cons_ok (stepByte_header3 na n2 h3 a m),
          validate_cons_ok (stepByte_midtail3 ht1 a m)]
      exact validate_nil_tails _ _ _ _ _
  · intro h4
    obtain ⟨na, n2, n3⟩ := header4_not_prev h4
    refine ⟨?_, ?_⟩
    · rw [validate_cons_ok (stepByte_header4 na n2 n3 h4 a m)]
      exact validate_nil_tails _ _ _ _ _
    · intro ht1
      refine ⟨?_, ?_⟩
      · rw [validate_cons_ok (stepByte_header4 na n2 n3 h4 a m),
            validate_cons_ok (stepByte_midtail4a ht1 a m)]
        exact validate_nil_tails _ _ _ _ _
      · intro ht2
        rw [validate_cons_ok (stepByte_header4 na n2 n3 h4 a m),
            validate_cons_ok (stepByte_midtail4a ht1 a m),
            validate_cons_ok (stepByte_midtail4b ht2 a m)]
        exact validate_nil_tails _ _ _ _ _

/-- Witness for C10 at the concrete input `[0xE2, 0x82]`: the detail is
`0x82`, the header payload `0x2` shifted by 6 or'd with the tail payload
`0x02`. -/
theorem truncation_codepoint_detail_witness :
    validate [0xE2, 0x82] Mode.header 0 0 = Result.invalidCodePoint 0x82 := by
  have h := ((truncation_codepoint_detail 0xE2 0x82 0x80 0 0).2.1 (by decide)).2 (by decide)
  exact h.trans (by decide)

/-- C6: a 3-byte sequence with valid header and continuation bytes whose
assembled code point is a UTF-16 surrogate half (in `[0xD800, 0xDFFF]`) fails
with kind Invalid code point, carrying the assembled code point, and exit
code 3. -/
theorem surrogate_rejected (h t1 t2 : Nat) (rest : List Nat) (a m : Nat)
    (hh : h &&& 0xF0 = 0xE0)
    (ht1 : is_valid_tail_byte t1 = true) (ht2 : is_valid_tail_byte t2 = true)
    (hsur : 0xD800 ≤ ((((h &&& 0x0F) <<< 6) ||| get_tail_bits t1) <<< 6) ||| get_tail_bits t2 ∧
            ((((h &&& 0x0F) <<< 6) ||| get_tail_bits t1) <<< 6) ||| get_tail_bits t2 ≤ 0xDFFF) :
    validate (h :: t1 :: t2 :: rest) Mode.header a m =
      Result.invalidCodePoint
        (((((h &&& 0x0F) <<< 6) ||| get_tail_bits t1) <<< 6) ||| get_tail_bits t2) ∧
    exitCode (validate (h :: t1 :: t2 :: rest) Mode.header a m) = 3 := by
  obtain ⟨na, n2⟩ := header3_not_prev hh
  have hv : validate (h :: t1 :: t2 :: rest) Mode.header a m =
      Result.invalidCodePoint
        (((((h &&& 0x0F) <<< 6) ||| get_tail_bits t1) <<< 6) ||| get_tail_bits t2) := by
    rw [validate_cons_ok (stepByte_header3 na n2 hh a m),
        validate_cons_ok (stepByte_midtail3 ht1 a m)]
    exact validate_cons_err (stepByte_last3_surrogate ht2 hsur a m) rest
  exact ⟨hv, by rw [hv]; rfl⟩

/-- Witness for C6 at the concrete input `[0xED, 0xA0, 0x80]` (the encoding
of `0xD800`). -/
theorem surrogate_rejected_witness :
    validate [0xED, 0xA0, 0x80] Mode.header 0 0 = Result.invalidCodePoint 0xD800 ∧
    exitCode (validate [0xED, 0xA0, 0x80] Mode.header 0 0) = 3 := by
  have h := surrogate_rejected 0xED 0xA0 0x80 [] 0 0 (by decide) (by decide) (by decide)
    (by decide)
  exact ⟨h.1.trans (by decide), h.2⟩

/-- C7: a 4-byte sequence with valid header and continuation bytes whose
assembled code point exceeds `0x10FFFF` fails with kind Invalid code point and
exit code 3; the range check fires before (and independently of) the 4-byte
overlong check, so the failure is never reported as Overlong encoding. -/
theorem out_of_range_rejected (h t1 t2 t3 : Nat) (rest : List Nat) (a m : Nat)
    (hh : h &&& 0xF8 = 0xF0)
    (ht1 : is_valid_tail_byte t1 = true) (ht2 : is_valid_tail_byte t2 = true)
    (ht3 : is_valid_tail_byte t3 = true)
    (hrange : 0x10FFFF <
      ((((((h &&& 0x07) <<< 6) ||| get_tail_bits t1) <<< 6) ||| get_tail_bits t2) <<< 6) |||
        get_tail_bits t3) :
    validate (h :: t1 :: t2 :: t3 :: rest) Mode.header a m =
      Result.invalidCodePoint
        (((((((h &&& 0x07) <<< 6) ||| get_tail_bits t1) <<< 6) ||| get_tail_bits t2) <<< 6) |||
          get_tail_bits t3) ∧
    exitCode (validate (h :: t1 :: t2 :: t3 :: rest) Mode.header a m) = 3 ∧
    ∀ cp, validate (h :: t1 :: t2 :: t3 :: rest) Mode.header a m ≠
      Result.overlongEncoding cp := by
  obtain ⟨na, n2, n3⟩ := header4_not_prev hh
  have hv : validate (h :: t1 :: t2 :: t3 :: rest) Mode.header a m =
      Result.invalidCodePoint
        (((((((h &&& 0x07) <<< 6) ||| get_tail_bits t1) <<< 6) ||| get_tail_bits t2) <<< 6) |||
          get_tail_bits t3) := by
    rw [validate_cons_ok (stepByte_header4 na n2 n3 hh a m),
        validate_cons_ok (stepByte_midtail4a ht1 a m),
        validate_cons_ok (stepByte_midtail4b ht2 a m)]
    exact validate_cons_err (stepByte_last4_range ht3 hrange a m) rest
  refine ⟨hv, by rw [hv]; rfl, ?_⟩
  intro cp
  rw [hv]
  simp

/-- Witness for C7 at the concrete input `[0xF4, 0x90, 0x80, 0x80]` (the
encoding of `0x110000`, one past the Unicode maximum). -/
theorem out_of_range_rejected_witness :
    validate [0xF4, 0x90, 0x80, 0x80] Mode.header 0 0 = Result.invalidCodePoint 0x110000 ∧
    exitCode (validate [0xF4, 0x90, 0x80, 0x80] Mode.header 0 0) = 3 := by
  have h := out_of_range_rejected 0xF4 0x90 0x80 0x80 [] 0 0 (by decide) (by decide)
    (by decide) (by decide) (by decide)
  exact ⟨h.1.trans (by decide), h.2.1⟩

/-- C9: the leading bytes `0xC0` and `0xC1` are classified as valid 2-byte
headers rather than rejected as Invalid header byte; such a sequence can only
fail later, by the tail-byte, end-of-stream, or overlong checks — in
particular the single byte `0xC0` followed by end-of-stream fails with kind
Invalid code point and exit code 3, not Invalid header byte. -/
theorem c0_c1_header_accepted (h : Nat) (rest : List Nat) (a m : Nat)
    (hh : h = 0xC0 ∨ h = 0xC1) :
    stepByte Mode.header h a m = Sum.inl (Mode.tails 2 1 (h &&& 0x1F), a, m) ∧
    (∀ b, validate (h :: rest) Mode.header a m ≠ Result.invalidHeaderByte b) ∧
    ((∃ b, validate (h :: rest) Mode.header a m = Result.invalidTailByte b) ∨
      validate (h :: rest) Mode.header a m = Result.invalidCodePoint (h &&& 0x1F) ∨
      (∃ cp, validate (h :: rest) Mode.header a m = Result.overlongEncoding cp)) ∧
    validate [h] Mode.header a m = Result.invalidCodePoint (h &&& 0x1F) ∧
    exitCode (validate [h] Mode.header a m) = 3 := by
  have na : h &&& 0x80 ≠ 0 := by rcases hh with rfl | rfl <;> decide
  have h2 : h &&& 0xE0 = 0xC0 := by rcases hh with rfl | rfl <;> decide
  have hle : h &&& 0x1F ≤ 1 := by rcases hh with rfl | rfl <;> decide
  have hstep := stepByte_header2 na h2 a m
  have hd : (∃ b, validate (h :: rest) Mode.header a m = Result.invalidTailByte b) ∨
      validate (h :: rest) Mode.header a m = Result.invalidCodePoint (h &&& 0x1F) ∨
      (∃ cp, validate (h :: rest) Mode.header a m = Result.overlongEncoding cp) := by
    cases rest with
    | nil =>
      right; left
      rw [validate_cons_ok hstep]
      exact validate_nil_tails _ _ _ _ _
    | cons t1 rest2 =>
      by_cases hv : is_valid_tail_byte t1 = true
      · right; right
        refine ⟨((h &&& 0x1F) <<< 6) ||| get_tail_bits t1, ?_⟩
        have hcp : ((h &&& 0x1F) <<< 6) ||| get_tail_bits t1 ≤ 0x7F := by
          rw [shiftLeft6_or_eq _ _ (get_tail_bits_lt t1)]
          have := get_tail_bits_lt t1
          omega
        rw [validate_cons_ok hstep]
        exact validate_cons_err (stepByte_last2_overlong hv hcp a m) rest2
      · left
        refine ⟨t1, ?_⟩
        rw [validate_cons_ok hstep]
        exact validate_cons_err (stepByte_badtail (by simpa using hv) a m) rest2
  have hone : validate [h] Mode.header a m = Result.invalidCodePoint (h &&& 0x1F) := by
    rw [validate_cons_ok hstep]
    exact validate_nil_tails _ _ _ _ _
  refine ⟨hstep, ?_, hd, hone, by rw [hone]; rfl⟩
  intro b
  rcases hd with ⟨c, e⟩ | e | ⟨c, e⟩ <;> rw [e] <;> simp

/-- Witness for C9 at `h = 0xC0` with the empty rest of stream. -/
theorem c0_c1_header_accepted_witness :
    stepByte Mode.header 0xC0 0 0 = Sum.inl (Mode.tails 2 1 (0xC0 &&& 0x1F), 0, 0) ∧
    (∀ b, validate [0xC0] Mode.header 0 0 ≠ Result.invalidHeaderByte b) ∧
    ((∃ b, validate [0xC0] Mode.header 0 0 = Result.invalidTailByte b) ∨
      validate [0xC0] Mode.header 0 0 = Result.invalidCodePoint (0xC0 &&& 0x1F) ∨
      (∃ cp, validate [0xC0] Mode.header 0 0 = Result.overlongEncoding cp)) ∧
    validate [0xC0] Mode.header 0 0 = Result.invalidCodePoint (0xC0 &&& 0x1F) ∧
    exitCode (validate [0xC0] Mode.header 0 0) = 3 :=
  c0_c1_header_accepted 0xC0 [] 0 0 (Or.inl rfl)

/-! ### The counting invariant -/

/-- One fully validated 1-byte (ASCII) character: a list the validator
consumes whole, counting one ASCII character, whose byte count equals the
sequence length determined from its leading byte. -/
def isAsciiChar (c : List Nat) : Prop :=
  c.length = 1 ∧ c.length = seq_len c.headI ∧
  validate c Mode.header 0 0 = Result.success 1 0

/-- One fully validated multi-byte character: a list the validator consumes
whole, counting one multi-byte character, whose byte count equals the sequence
length determined from its leading byte. -/
def isMultiChar (c : List Nat) : Prop :=
  2 ≤ c.length ∧ c.length = seq_len c.headI ∧
  validate c Mode.header 0 0 = Result.success 0 1

/-- At the top of the loop, a non-empty stream either begins with one fully
valid character (consumed whole, bumping exactly the matching counter), or the
whole run fails no matter the counter values. -/
lemma validate_first_char (h : Nat) (t : List Nat) :
    (∃ c rest, h :: t = c ++ rest ∧ isAsciiChar c ∧
      ∀ a m : Nat, validate (h :: t) Mode.header a m =
        validate rest Mode.header (a + 1) m) ∨
    (∃ c rest, h :: t = c ++ rest ∧ isMultiChar c ∧
      ∀ a m : Nat, validate (h :: t) Mode.header a m =
        validate rest Mode.header a (m + 1)) ∨
    (∀ a m : Nat, exitCode (validate (h :: t) Mode.header a m) ≠ 0) := by
  by_cases h80 : h &&& 0x80 = 0
  · -- 1-byte UTF-8 character
    left
    refine ⟨[h], t, rfl, ⟨rfl, ?_, ?_⟩, ?_⟩
    · simp [seq_len, h80]
    · rw [validate_cons_ok (stepByte_ascii h80 0 0)]
      rfl
    · intro a m
      exact validate_cons_ok (stepByte_ascii h80 a m) t
  · by_cases h2 : h &&& 0xE0 = 0xC0
    · -- 2-byte UTF-8 character
      cases t with
      | nil =>
        right; right
        intro a m
        rw [validate_cons_ok (stepByte_header2 h80 h2 a m), validate_nil_tails]
        simp [exitCode]
      | cons t1 t2 =>
        by_cases hv : is_valid_tail_byte t1 = true
        · by_cases hol : ((h &&& 0x1F) <<< 6) ||| get_tail_bits t1 ≤ 0x7F
          · right; right
            intro a m
            rw [validate_cons_ok (stepByte_header2 h80 h2 a m),
                validate_cons_err (stepByte_last2_overlong hv hol a m) t2]
            simp [exitCode]
          · right; left
            refine ⟨[h, t1], t2, rfl, ⟨by simp, ?_, ?_⟩, ?_⟩
            · simp [seq_len, h80, h2]
            · rw [validate_cons_ok (stepByte_header2 h80 h2 0 0),
                  validate_cons_ok (stepByte_last2_ok hv (by omega) 0 0)]
              rfl
            · intro a m
              rw [validate_cons_ok (stepByte_header2 h80 h2 a m),
                  validate_cons_ok (stepByte_last2_ok hv (by omega) a m)]
        · right; right
          intro a m
          rw [validate_cons_ok (stepByte_header2 h80 h2 a m),
              validate_cons_err (stepByte_badtail (by simpa using hv) a m) t2]
          simp [exitCode]
    · by_cases h3 : h &&& 0xF0 = 0xE0
      · -- 3-byte UTF-8 character
        cases t with
        | nil =>
          right; right
          intro a m
          rw [validate_cons_ok (stepByte_header3 h80 h2 h3 a m), validate_nil_tails]
          simp [exitCode]
        | cons t1 t2 =>
          by_cases hv1 : is_valid_tail_byte t1 = true
          · cases t2 with
            | nil =>
              right; right
              intro a m
              rw [validate_cons_ok (stepByte_header3 h80 h2 h3 a m),
                  validate_cons_ok (stepByte_midtail3 hv1 a m), validate_nil_tails]
              simp [exitCode]
            | cons u1 t3 =>
              by_cases hv2 : is_valid_tail_byte u1 = true
              · by_cases hsur : 0xD800 ≤ ((((h &&& 0x0F) <<< 6) ||| get_tail_bits t1) <<< 6) |||
                    get_tail_bits u1 ∧
                    ((((h &&& 0x0F) <<< 6) ||| get_tail_bits t1) <<< 6) ||| get_tail_bits u1 ≤ 0xDFFF
                · right; right
                  intro a m
                  rw [validate_cons_ok (stepByte_header3 h80 h2 h3 a m),
                      validate_cons_ok (stepByte_midtail3 hv1 a m),
                      validate_cons_err (stepByte_last3_surrogate hv2 hsur a m) t3]
                  simp [exitCode]
                · by_cases hol3 : ((((h &&& 0x0F) <<< 6) ||| get_tail_bits t1) <<< 6) |||
                      get_tail_bits u1 ≤ 0x7FF
                  · right; right
                    intro a m
                    rw [validate_cons_ok (stepByte_header3 h80 h2 h3 a m),
                        validate_cons_ok (stepByte_midtail3 hv1 a m),
                        validate_cons_err (stepByte_last3_overlong hv2 hol3 a m) t3]
                    simp [exitCode]
                  · right; left
                    refine ⟨[h, t1, u1], t3, rfl, ⟨by simp, ?_, ?_⟩, ?_⟩
                    · simp [seq_len, h80, h2, h3]
                    · rw [validate_cons_ok (stepByte_header3 h80 h2 h3 0 0),
                          validate_cons_ok (stepByte_midtail3 hv1 0 0),
                          validate_cons_ok (stepByte_last3_ok hv2 (by omega) hsur 0 0)]
                      rfl
                    · intro a m
                      rw [validate_cons_ok (stepByte_header3 h80 h2 h3 a m),
                          validate_cons_ok (stepByte_midtail3 hv1 a m),
                          validate_cons_ok (stepByte_last3_ok hv2 (by omega) hsur a m)]
              · right; right
                intro a m
                rw [validate_cons_ok (stepByte_header3 h80 h2 h3 a m),
                    validate_cons_ok (stepByte_midtail3 hv1 a m),
                    validate_cons_err (stepByte_badtail (by simpa using hv2) a m) t3]
                simp [exitCode]
          · right; right
            intro a m
            rw [validate_cons_ok (stepByte_header3 h80 h2 h3 a m),
                validate_cons_err (stepByte_badtail (by simpa using hv1) a m) t2]
            simp [exitCode]
      · by_cases h4 : h &&& 0xF8 = 0xF0
        · -- 4-byte UTF-8 character
          cases t with
          | nil =>
            right; right
            intro a m
            rw [validate_cons_ok (stepByte_header4 h80 h2 h3 h4 a m), validate_nil_tails]
            simp [exitCode]
          | cons t1 t2 =>
            by_cases hv1 : is_valid_tail_byte t1 = true
            · cases t2 with
              | nil =>
                right; right
                intro a m
                rw [validate_cons_ok (stepByte_header4 h80 h2 h3 h4 a m),
                    validate_cons_ok (stepByte_midtail4a hv1 a m), validate_nil_tails]
                simp [exitCode]
              | cons u1 t3 =>
                by_cases hv2 : is_valid_tail_byte u1 = true
                · cases t3 with
                  | nil =>
                    right; right
                    intro a m
                    rw [validate_cons_ok (stepByte_header4 h80 h2 h3 h4 a m),
                        validate_cons_ok (stepByte_midtail4a hv1 a m),
                        validate_cons_ok (stepByte_midtail4b hv2 a m), validate_nil_tails]
                    simp [exitCode]
                  | cons w1 t4 =>
                    by_cases hv3 : is_valid_tail_byte w1 = true
                    · by_cases hrange : 0x10FFFF <
                          ((((((h &&& 0x07) <<< 6) ||| get_tail_bits t1) <<< 6) |||
                            get_tail_bits u1) <<< 6) ||| get_tail_bits w1
                      · right; right
                        intro a m
                        rw [validate_cons_ok (stepByte_header4 h80 h2 h3 h4 a m),
                            validate_cons_ok (stepByte_midtail4a hv1 a m),
                            validate_cons_ok (stepByte_midtail4b hv2 a m),
                            validate_cons_err (stepByte_last4_range hv3 hrange a m) t4]
                        simp [exitCode]
                      · by_cases hol4 : ((((((h &&& 0x07) <<< 6) ||| get_tail_bits t1) <<< 6) |||
                            get_tail_bits u1) <<< 6) ||| get_tail_bits w1 ≤ 0xFFFF
                        · right; right
                          intro a m
                          rw [validate_cons_ok (stepByte_header4 h80 h2 h3 h4 a m),
                              validate_cons_ok (stepByte_midtail4a hv1 a m),
                              validate_cons_ok (stepByte_midtail4b hv2 a m),
                              validate_cons_err (stepByte_last4_overlong hv3 hol4 a m) t4]
                          simp [exitCode]
                        · right; left
                          refine ⟨[h, t1, u1, w1], t4, rfl, ⟨by simp, ?_, ?_⟩, ?_⟩
                          · simp [seq_len, h80, h2, h3, h4]
                          · rw [validate_cons_ok (stepByte_header4 h80 h2 h3 h4 0 0),
                                validate_cons_ok (stepByte_midtail4a hv1 0 0),
                                validate_cons_ok (stepByte_midtail4b hv2 0 0),
                                validate_cons_ok
                                  (stepByte_last4_ok hv3 (by omega) (by omega) 0 0)]
                            rfl
                          · intro a m
                            rw [validate_cons_ok (stepByte_header4 h80 h2 h3 h4 a m),
                                validate_cons_ok (stepByte_midtail4a hv1 a m),
                                validate_cons_ok (stepByte_midtail4b hv2 a m),
                                validate_cons_ok
                                  (stepByte_last4_ok hv3 (by omega) (by omega) a m)]
                    · right; right
                      intro a m
                      rw [validate_cons_ok (stepByte_header4 h80 h2 h3 h4 a m),
                          validate_cons_ok (stepByte_midtail4a hv1 a m),
                          validate_cons_ok (stepByte_midtail4b hv2 a m),
                          validate_cons_err (stepByte_badtail (by simpa using hv3) a m) t4]
                      simp [exitCode]
                · right; right
                  intro a m
                  rw [validate_cons_ok (stepByte_header4 h80 h2 h3 h4 a m),
                      validate_cons_ok (stepByte_midtail4a hv1 a m),
                      validate_cons_err (stepByte_badtail (by simpa using hv2) a m) t3]
                  simp [exitCode]
            · right; right
              intro a m
              rw [validate_cons_ok (stepByte_header4 h80 h2 h3 h4 a m),
                  validate_cons_err (stepByte_badtail (by simpa using hv1) a m) t2]
              simp [exitCode]
        · -- invalid header byte
          right; right
          intro a m
          rw [validate_cons_err (stepByte_badheader h80 h2 h3 h4 a m) t]
          simp [exitCode]

/-- C8: characters are counted only after every byte of their sequence has
been consumed and every check has passed.  Every input splits into a maximal
prefix of fully validated characters — each of which occupies exactly the
number of bytes the sequence length of its leading byte dictates and bumps
exactly its counter — followed by a remainder on which the run fails (for any
counter values) or which is empty; the counters at that point are the initial
values plus exactly the counts of those fully validated characters. -/
theorem counting_invariant (l : List Nat) (a m : Nat) :
    ∃ (chars : List (List Nat)) (rest : List Nat),
      l = chars.flatten ++ rest ∧
      (∀ c ∈ chars, isAsciiChar c ∨ isMultiChar c) ∧
      validate l Mode.header a m =
        validate rest Mode.header
          (a + List.countP (fun c => c.length == 1) chars)
          (m + List.countP (fun c => c.length != 1) chars) ∧
      (rest = [] ∨ ∀ a2 m2 : Nat, exitCode (validate rest Mode.header a2 m2) ≠ 0) := by
  have main : ∀ (k : Nat) (l : List Nat), l.length ≤ k → ∀ a m : Nat,
      ∃ (chars : List (List Nat)) (rest : List Nat),
        l = chars.flatten ++ rest ∧
        (∀ c ∈ chars, isAsciiChar c ∨ isMultiChar c) ∧
        validate l Mode.header a m =
          validate rest Mode.header
            (a + List.countP (fun c => c.length == 1) chars)
            (m + List.countP (fun c => c.length != 1) chars) ∧
        (rest = [] ∨ ∀ a2 m2 : Nat, exitCode (validate rest Mode.header a2 m2) ≠ 0) := by
    intro k
    induction k with
    | zero =>
      intro l hl a m
      have hnil : l = [] := List.eq_nil_of_length_eq_zero (Nat.le_zero.mp hl)
      subst hnil
      exact ⟨[], [], by simp, by simp, by simp, Or.inl rfl⟩
    | succ k ih =>
      intro l hl a m
      cases l with
      | nil => exact ⟨[], [], by simp, by simp, by simp, Or.inl rfl⟩
      | cons h t =>
        rcases validate_first_char h t with
          ⟨c, rest0, hsplit, hchar, heq⟩ | ⟨c, rest0, hsplit, hchar, heq⟩ | hfail
        · -- leading ASCII character
          have hlen : rest0.length ≤ k := by
            have hc := congrArg List.length hsplit
            simp [hchar.1] at hc
            simp at hl
            omega
          obtain ⟨chars2, rest2, hj, hval, hrun, hfin⟩ := ih rest0 hlen (a + 1) m
          refine ⟨c :: chars2, rest2, ?_, ?_, ?_, hfin⟩
          · rw [hsplit, hj]
            simp [List.flatten_cons, List.append_assoc]
          · intro x hx
            rcases List.mem_cons.mp hx with rfl | hx2
            · exact Or.inl hchar
            · exact hval x hx2
          · have hc1 : (c.length == 1) = true := by simp [hchar.1]
            have hc2 : (c.length != 1) = false := by simp [hchar.1]
            rw [heq a m, hrun, List.countP_cons, List.countP_cons, hc1, hc2]
            simp only [if_true, if_false]
            congr 1
            omega
        · -- leading multi-byte character
          have hlen : rest0.length ≤ k := by
            have hc := congrArg List.length hsplit
            have h2c := hchar.1
            simp at hc hl
            omega
          obtain ⟨chars2, rest2, hj, hval, hrun, hfin⟩ := ih rest0 hlen a (m + 1)
          refine ⟨c :: chars2, rest2, ?_, ?_, ?_, hfin⟩
          · rw [hsplit, hj]
            simp [List.flatten_cons, List.append_assoc]
          · intro x hx
            rcases List.mem_cons.mp hx with rfl | hx2
            · exact Or.inr hchar
            · exact hval x hx2
          · have hne : c.length ≠ 1 := by
              have := hchar.1
              omega
            have hc1 : (c.length == 1) = false := by simp [hne]
            have hc2 : (c.length != 1) = true := by simp [hne]
            rw [heq a m, hrun, List.countP_cons, List.countP_cons, hc1, hc2]
            simp only [if_true, if_false]
            congr 1
            omega
        · exact ⟨[], h :: t, by simp, by simp, by simp, Or.inr hfail⟩
  exact main l.length l le_rfl a m

end Utf8Validate
